import Mathlib

/-
Verification of the crypto-orderbook engine (Go sources under internal/)
against its natural-language specification.

Shallow embedding conventions:
* `decimal.Decimal` values are embedded as `ℚ` (shopspring decimal is exact
  decimal arithmetic; every decimal is a rational, and the operations used by
  the code — add, sub, mul, div, floor, ceil, comparisons — agree with the
  rational operations).
* A Go wire string (price or quantity) is embedded as `RawStr`: the string
  itself (`repr`, used as map key) together with the result of
  `decimal.NewFromString` (`val`; `none` models a parse error).
* Go maps `map[string]PriceLevel` are embedded as association lists keyed by
  `RawStr`; insertion, deletion and membership mirror the map operations.
  Map iteration order is unspecified in Go; every fold we take over a map is
  order-insensitive in its result (max, min, filtered sums), so a fixed list
  order is a faithful embedding.
* `int64` update ids are embedded as `ℤ` (the claims never approach overflow).
* Time-valued fields (`EventTime`, `ConnectionTime`, `LastEventTime`) play no
  role in any claim and are omitted.
-/

namespace Orderbook

/-- A price or quantity string on the wire. `repr` stands for the Go string
itself (Go map keys compare whole strings); `val` is the result of
`decimal.NewFromString`: `none` when parsing fails, otherwise the exact
decimal value as a rational. -/
structure RawStr where
  repr : String
  val : Option ℚ
deriving DecidableEq

/-- exchange.PriceLevel: price and quantity as wire strings. -/
structure WireLevel where
  price : RawStr
  quantity : RawStr
deriving DecidableEq

/-- types.PriceLevel: parsed decimal price and quantity. -/
structure PriceLevel where
  price : ℚ
  quantity : ℚ
deriving DecidableEq

/-- exchange.Snapshot (the fields the engine reads). -/
structure Snapshot where
  lastUpdateID : ℤ
  bids : List WireLevel
  asks : List WireLevel
deriving DecidableEq

/-- exchange.DepthUpdate (the fields the engine reads). -/
structure DepthUpdate where
  firstUpdateID : ℤ
  finalUpdateID : ℤ
  prevUpdateID : ℤ
  bids : List WireLevel
  asks : List WireLevel
deriving DecidableEq

/-- types.Stats (decimal and counter fields; time fields omitted). -/
structure Stats where
  eventsProcessed : ℤ
  bufferedEvents : ℕ
  bidLevels : ℕ
  askLevels : ℕ
  bestBid : ℚ
  bestAsk : ℚ
  spread : ℚ
  bidLiquidity05Pct : ℚ
  askLiquidity05Pct : ℚ
  bidLiquidity2Pct : ℚ
  askLiquidity2Pct : ℚ
  bidLiquidity10Pct : ℚ
  askLiquidity10Pct : ℚ
  deltaLiquidity05Pct : ℚ
  deltaLiquidity2Pct : ℚ
  deltaLiquidity10Pct : ℚ
  totalBidsQty : ℚ
  totalAsksQty : ℚ
  totalDelta : ℚ
deriving DecidableEq

/-- The zero Stats value (fresh book). -/
def initStats : Stats :=
  { eventsProcessed := 0, bufferedEvents := 0, bidLevels := 0, askLevels := 0
    bestBid := 0, bestAsk := 0, spread := 0
    bidLiquidity05Pct := 0, askLiquidity05Pct := 0
    bidLiquidity2Pct := 0, askLiquidity2Pct := 0
    bidLiquidity10Pct := 0, askLiquidity10Pct := 0
    deltaLiquidity05Pct := 0, deltaLiquidity2Pct := 0, deltaLiquidity10Pct := 0
    totalBidsQty := 0, totalAsksQty := 0, totalDelta := 0 }

/-- A Go `map[string]types.PriceLevel`, embedded as an association list. -/
abbrev LevelMap := List (RawStr × PriceLevel)

/-- `m[k] = v` (insert or overwrite). -/
def mapInsert (k : RawStr) (v : PriceLevel) (m : LevelMap) : LevelMap :=
  if m.any fun e => e.1 = k then
    m.map fun e => if e.1 = k then (k, v) else e
  else
    m ++ [(k, v)]

/-- `delete(m, k)`. -/
def mapDelete (k : RawStr) (m : LevelMap) : LevelMap :=
  m.filter fun e => e.1 ≠ k

/-- `_, exists := m[k]`. -/
def mapContains (k : RawStr) (m : LevelMap) : Bool :=
  m.any fun e => e.1 = k

/-- orderbook.OrderBook (mutex omitted; time fields omitted). -/
structure Book where
  bids : LevelMap
  asks : LevelMap
  lastUpdateID : ℤ
  eventBuffer : List DepthUpdate
  initialized : Bool
  stats : Stats
  bestBid : ℚ
  bestAsk : ℚ
  bidLevels : ℕ
  askLevels : ℕ
deriving DecidableEq

/-- orderbook.New(). -/
def Book.new : Book :=
  { bids := [], asks := [], lastUpdateID := 0, eventBuffer := []
    initialized := false, stats := initStats
    bestBid := 0, bestAsk := 0, bidLevels := 0, askLevels := 0 }

/-- The sentinel `decimal.NewFromFloat(999999999)` used for best-ask scans. -/
def askSentinel : ℚ := 999999999

/-- Fold computing the maximum price over a level map, starting from `init`
(the Go loops compare with `GreaterThan` against the accumulator). -/
def maxPriceOr (init : ℚ) (m : LevelMap) : ℚ :=
  m.foldl (fun acc e => if acc < e.2.price then e.2.price else acc) init

/-- Fold computing the minimum price over a level map, starting from `init`. -/
def minPriceOr (init : ℚ) (m : LevelMap) : ℚ :=
  m.foldl (fun acc e => if e.2.price < acc then e.2.price else acc) init

/-- Sum of the quantities of the levels whose price satisfies `p`. -/
def sumQtyWhere (m : LevelMap) (p : ℚ → Bool) : ℚ :=
  m.foldl (fun acc e => if p e.2.price then acc + e.2.quantity else acc) 0

/-- orderbook.calculateLiquidityDepth: liquidity bands at 0.5 %, 2 % and 10 %
around the mid price; when either cached best price is zero every band and
both totals are zeroed (note: `TotalDelta` is not reset in that branch,
exactly as in the source). -/
def calculateLiquidityDepth (b : Book) : Book :=
  if b.bestBid = 0 ∨ b.bestAsk = 0 then
    { b with stats := { b.stats with
        bidLiquidity05Pct := 0, askLiquidity05Pct := 0
        bidLiquidity2Pct := 0, askLiquidity2Pct := 0
        bidLiquidity10Pct := 0, askLiquidity10Pct := 0
        deltaLiquidity05Pct := 0, deltaLiquidity2Pct := 0
        deltaLiquidity10Pct := 0
        totalBidsQty := 0, totalAsksQty := 0 } }
  else
    let midPrice := (b.bestBid + b.bestAsk) / 2
    let threshold05Pct := midPrice * (5 / 1000)
    let threshold2Pct := midPrice * (2 / 100)
    let threshold10Pct := midPrice * (10 / 100)
    let minBid05Pct := midPrice - threshold05Pct
    let minBid2Pct := midPrice - threshold2Pct
    let minBid10Pct := midPrice - threshold10Pct
    let bidLiq05 := sumQtyWhere b.bids fun p => decide (minBid05Pct ≤ p)
    let bidLiq2 := sumQtyWhere b.bids fun p => decide (minBid2Pct ≤ p)
    let bidLiq10 := sumQtyWhere b.bids fun p => decide (minBid10Pct ≤ p)
    let totalBidsQty := sumQtyWhere b.bids fun _ => true
    let maxAsk05Pct := midPrice + threshold05Pct
    let maxAsk2Pct := midPrice + threshold2Pct
    let maxAsk10Pct := midPrice + threshold10Pct
    let askLiq05 := sumQtyWhere b.asks fun p => decide (p ≤ maxAsk05Pct)
    let askLiq2 := sumQtyWhere b.asks fun p => decide (p ≤ maxAsk2Pct)
    let askLiq10 := sumQtyWhere b.asks fun p => decide (p ≤ maxAsk10Pct)
    let totalAsksQty := sumQtyWhere b.asks fun _ => true
    { b with stats := { b.stats with
        bidLiquidity05Pct := bidLiq05, askLiquidity05Pct := askLiq05
        bidLiquidity2Pct := bidLiq2, askLiquidity2Pct := askLiq2
        bidLiquidity10Pct := bidLiq10, askLiquidity10Pct := askLiq10
        deltaLiquidity05Pct := bidLiq05 - askLiq05
        deltaLiquidity2Pct := bidLiq2 - askLiq2
        deltaLiquidity10Pct := bidLiq10 - askLiq10
        totalBidsQty := totalBidsQty, totalAsksQty := totalAsksQty
        totalDelta := totalBidsQty - totalAsksQty } }

/-- orderbook.updateCachedStats: copy the cached fields into the stats
structure, compute the spread, and refresh the liquidity bands. -/
def updateCachedStats (b : Book) : Book :=
  let st := { b.stats with
    bidLevels := b.bidLevels, askLevels := b.askLevels
    bufferedEvents := b.eventBuffer.length
    bestBid := b.bestBid, bestAsk := b.bestAsk
    spread := if b.bestBid ≠ 0 ∧ b.bestAsk ≠ 0 ∧ b.bestBid < b.bestAsk
              then b.bestAsk - b.bestBid else 0 }
  calculateLiquidityDepth { b with stats := st }

/-- orderbook.updateStats: recompute level counts and cached best prices from
scratch (best ask via the 999999999 sentinel), then refresh cached stats. -/
def updateStats (b : Book) : Book :=
  let b := { b with bidLevels := b.bids.length, askLevels := b.asks.length }
  let bb := if 0 < b.bids.length then maxPriceOr 0 b.bids else 0
  let ba :=
    if 0 < b.asks.length then
      let v := minPriceOr askSentinel b.asks
      if v = askSentinel then 0 else v
    else 0
  updateCachedStats { b with bestBid := bb, bestAsk := ba }

/-- orderbook.recalculateBestBid: full re-scan of the bid side. -/
def recalculateBestBid (b : Book) : Book :=
  { b with bestBid := maxPriceOr 0 b.bids }

/-- orderbook.recalculateBestAsk: full re-scan of the ask side through the
sentinel; an empty side yields zero. -/
def recalculateBestAsk (b : Book) : Book :=
  let v := minPriceOr askSentinel b.asks
  { b with bestAsk := if v = askSentinel then 0 else v }

/-- The bid loop of orderbook.LoadSnapshot: processes the snapshot bid entries
in order; the first parse failure returns the error (`true`) leaving previous
entries inserted. Zero-quantity entries are dropped. -/
def loadBids : List WireLevel → Book → Book × Bool
  | [], b => (b, false)
  | e :: rest, b =>
    match e.price.val with
    | none => (b, true)
    | some price =>
      match e.quantity.val with
      | none => (b, true)
      | some qty =>
        if qty = 0 then loadBids rest b
        else
          let b := { b with bids := mapInsert e.price ⟨price, qty⟩ b.bids }
          let b := if b.bestBid < price then { b with bestBid := price } else b
          loadBids rest b

/-- The ask loop of orderbook.LoadSnapshot (minimum tracked against the
sentinel left in `bestAsk`). -/
def loadAsks : List WireLevel → Book → Book × Bool
  | [], b => (b, false)
  | e :: rest, b =>
    match e.price.val with
    | none => (b, true)
    | some price =>
      match e.quantity.val with
      | none => (b, true)
      | some qty =>
        if qty = 0 then loadAsks rest b
        else
          let b := { b with asks := mapInsert e.price ⟨price, qty⟩ b.asks }
          let b := if price < b.bestAsk then { b with bestAsk := price } else b
          loadAsks rest b

/-- orderbook.LoadSnapshot. The book is mutated in place in Go; we return the
mutated book together with the error flag (`true` = a parse error was
returned). On error the book keeps the partial mutation and `updateStats`
is never reached. -/
def LoadSnapshot (b : Book) (s : Snapshot) : Book × Bool :=
  let b := { b with lastUpdateID := s.lastUpdateID, bids := [], asks := []
                    bestBid := 0, bestAsk := askSentinel }
  match loadBids s.bids b with
  | (b, true) => (b, true)
  | (b, false) =>
    match loadAsks s.asks b with
    | (b, true) => (b, true)
    | (b, false) => (updateStats b, false)

/-- One bid entry of orderbook.applyUpdate. The Go code ignores parse errors
(`qty, _ := decimal.NewFromString(...)`), so a failed parse yields the zero
decimal; the raw string stays the map key. The Bool is `bestBidChanged`. -/
def applyBidLevel (acc : Book × Bool) (lvl : WireLevel) : Book × Bool :=
  let b := acc.1
  let qty := lvl.quantity.val.getD 0
  let priceDecimal := lvl.price.val.getD 0
  if qty = 0 then
    if mapContains lvl.price b.bids then
      ({ b with bids := mapDelete lvl.price b.bids },
       if priceDecimal = b.bestBid then true else acc.2)
    else acc
  else
    let b := { b with bids := mapInsert lvl.price ⟨priceDecimal, qty⟩ b.bids }
    (if b.bestBid < priceDecimal then { b with bestBid := priceDecimal } else b,
     acc.2)

/-- One ask entry of orderbook.applyUpdate; the Bool is `bestAskChanged`. -/
def applyAskLevel (acc : Book × Bool) (lvl : WireLevel) : Book × Bool :=
  let b := acc.1
  let qty := lvl.quantity.val.getD 0
  let priceDecimal := lvl.price.val.getD 0
  if qty = 0 then
    if mapContains lvl.price b.asks then
      ({ b with asks := mapDelete lvl.price b.asks },
       if priceDecimal = b.bestAsk then true else acc.2)
    else acc
  else
    let b := { b with asks := mapInsert lvl.price ⟨priceDecimal, qty⟩ b.asks }
    (if priceDecimal < b.bestAsk then { b with bestAsk := priceDecimal } else b,
     acc.2)

/-- orderbook.applyUpdate: merge the update's levels, re-scan a side only when
its cached best was deleted, advance `lastUpdateID`, bump the event counter
and refresh cached stats. -/
def applyUpdate (b : Book) (u : DepthUpdate) : Book :=
  let pb := u.bids.foldl applyBidLevel (b, false)
  let pa := u.asks.foldl applyAskLevel (pb.1, false)
  let b1 := pa.1
  let b2 := if pb.2 then recalculateBestBid b1 else b1
  let b3 := if pa.2 then recalculateBestAsk b2 else b2
  let b4 := { b3 with lastUpdateID := u.finalUpdateID
                      stats := { b3.stats with
                        eventsProcessed := b3.stats.eventsProcessed + 1 } }
  updateCachedStats b4

/-- orderbook.HandleDepthUpdate: before initialization everything is buffered;
afterwards an in-sequence or overlapping event is applied and anything else is
buffered. Total — it never returns an error. -/
def HandleDepthUpdate (b : Book) (u : DepthUpdate) : Book :=
  if b.initialized = false then
    { b with eventBuffer := b.eventBuffer ++ [u] }
  else if u.prevUpdateID ≠ b.lastUpdateID then
    if u.firstUpdateID ≤ b.lastUpdateID + 1 ∧ b.lastUpdateID < u.finalUpdateID then
      applyUpdate b u
    else
      { b with eventBuffer := b.eventBuffer ++ [u] }
  else
    applyUpdate b u

/-- The retention test of orderbook.ProcessBufferedEvents: an event survives
the buffer walk iff `finalUpdateId > lastUpdateId` and
`firstUpdateId ≤ lastUpdateId + 1` (both compared against the book's
`lastUpdateID` at walk time). -/
def retainEvent (last : ℤ) (e : DepthUpdate) : Bool :=
  decide (last < e.finalUpdateID) && decide (e.firstUpdateID ≤ last + 1)

/-- Insertion into a list sorted by `firstUpdateID` (embeds `sort.Slice`). -/
def insertByFirstID (e : DepthUpdate) : List DepthUpdate → List DepthUpdate
  | [] => [e]
  | x :: xs =>
    if e.firstUpdateID ≤ x.firstUpdateID then e :: x :: xs
    else x :: insertByFirstID e xs

/-- Sorting the retained events by `firstUpdateID`. -/
def sortByFirstID (l : List DepthUpdate) : List DepthUpdate :=
  l.foldr insertByFirstID []

/-- orderbook.ProcessBufferedEvents: filter the buffer against the current
`lastUpdateID`, clear it, apply the retained events in `firstUpdateID` order
(re-checking `firstUpdateId ≤ lastUpdateId + 1` against the advancing id),
and flip `initialized`. -/
def ProcessBufferedEvents (b : Book) : Book :=
  let validEvents := b.eventBuffer.filter (retainEvent b.lastUpdateID)
  if validEvents = [] then
    { b with eventBuffer := [], initialized := true }
  else
    let b1 := { b with eventBuffer := [] }
    let b2 := (sortByFirstID validEvents).foldl
      (fun bk e =>
        if e.firstUpdateID ≤ bk.lastUpdateID + 1 then applyUpdate bk e else bk)
      b1
    { b2 with initialized := true }

/-- aggregation.roundToTickBid: floor the price to the tick grid (a zero tick
returns the price unchanged). `decimal.NewFromFloat` on the tick constants
0.1, 1, 10, 50, 100 is exact, so the tick is a rational parameter. -/
def roundToTickBid (tick price : ℚ) : ℚ :=
  if tick = 0 then price else ⌊price / tick⌋ * tick

/-- aggregation.roundToTickAsk: ceil the price to the tick grid. -/
def roundToTickAsk (tick price : ℚ) : ℚ :=
  if tick = 0 then price else ⌈price / tick⌉ * tick

/-- One step of the bucketing loop shared by AggregateBids and AggregateAsks:
add quantity `q` into the bucket at price `p`, creating it if absent. The Go
code keys its map by `roundedPrice.String()`; every key is produced as
`floored.Mul(tickSize)` (exponent `0 + exp(tick)`), so equal rationals have
identical strings and distinct rationals distinct strings — keying by
rational equality is faithful. -/
def addBucket (p q : ℚ) (acc : List PriceLevel) : List PriceLevel :=
  if acc.any fun l => l.price = p then
    acc.map fun l => if l.price = p then ⟨p, l.quantity + q⟩ else l
  else
    acc ++ [⟨p, q⟩]

/-- The bucketing fold shared by the two aggregation functions, parameterized
by the rounding function. -/
def aggregateWith (f : ℚ → ℚ) (levels : List PriceLevel) : List PriceLevel :=
  levels.foldl (fun acc l => addBucket (f l.price) l.quantity acc) []

/-- aggregation.AggregateBids: bucket bid levels, flooring prices. -/
def AggregateBids (tick : ℚ) (levels : List PriceLevel) : List PriceLevel :=
  aggregateWith (roundToTickBid tick) levels

/-- aggregation.AggregateAsks: bucket ask levels, ceiling prices. -/
def AggregateAsks (tick : ℚ) (levels : List PriceLevel) : List PriceLevel :=
  aggregateWith (roundToTickAsk tick) levels

/-- The `midPrice` field of websocket.buildStatsMessage:
`stats.BestBid.Add(stats.BestAsk).Div(decimal.NewFromInt(2))` (the published
string serializes this exact decimal value). -/
def buildStatsMidPrice (st : Stats) : ℚ :=
  (st.bestBid + st.bestAsk) / 2

/-- okx.convertSnapshot: the OKX REST book becomes a canonical snapshot with
`LastUpdateID: 0`. -/
def convertSnapshotOKX (bids asks : List WireLevel) : Snapshot :=
  { lastUpdateID := 0, bids := bids, asks := asks }

/-- okx.poll: the polled snapshot is emitted as a depth update with
`FirstUpdateID: 0, FinalUpdateID: 0, PrevUpdateID: 0` and the snapshot's
levels. -/
def okxPollUpdate (s : Snapshot) : DepthUpdate :=
  { firstUpdateID := 0, finalUpdateID := 0, prevUpdateID := 0
    bids := s.bids, asks := s.asks }

/-! Concrete inputs used by the scenario theorems and witnesses. -/

/-- Buffered event with final id 98 (scenario E1; firstUpdateId below 99). -/
def c1e98 : DepthUpdate := ⟨97, 98, 96, [], []⟩

/-- Buffered event with firstUpdateId 99, final id 101 (scenario E1). -/
def c1e101 : DepthUpdate := ⟨99, 101, 100, [], []⟩

/-- Buffered event with firstUpdateId 102, final id 102 (scenario E1). -/
def c1e102 : DepthUpdate := ⟨102, 102, 101, [], []⟩

/-- Snapshot with lastUpdateId 100 and best bid 50000 (scenario E1). -/
def c1Snapshot : Snapshot :=
  ⟨100, [⟨⟨"50000", some 50000⟩, ⟨"2", some 2⟩⟩],
        [⟨⟨"50100", some 50100⟩, ⟨"1", some 1⟩⟩]⟩

/-- Scenario E1 run: buffer the three events, load the snapshot, process the
buffer. -/
def c1Final : Book :=
  ProcessBufferedEvents
    (LoadSnapshot
      (HandleDepthUpdate
        (HandleDepthUpdate (HandleDepthUpdate Book.new c1e98) c1e101) c1e102)
      c1Snapshot).1

/-- Snapshot with one bid (90) and one ask (100), lastUpdateId 1. -/
def c2Snapshot : Snapshot :=
  ⟨1, [⟨⟨"90", some 90⟩, ⟨"1", some 1⟩⟩],
      [⟨⟨"100", some 100⟩, ⟨"1", some 1⟩⟩]⟩

/-- In-sequence update deleting the only ask (quantity 0 at 100). -/
def c2DeleteAsk : DepthUpdate :=
  ⟨2, 2, 1, [], [⟨⟨"100", some 100⟩, ⟨"0", some 0⟩⟩]⟩

/-- In-sequence update inserting a new ask at 105. -/
def c2InsertAsk : DepthUpdate :=
  ⟨3, 3, 2, [], [⟨⟨"105", some 105⟩, ⟨"1", some 1⟩⟩]⟩

/-- A correctly snapshotted, initialized book whose only ask is deleted and a
new ask inserted by two in-sequence updates. -/
def c2Final : Book :=
  HandleDepthUpdate
    (HandleDepthUpdate
      (ProcessBufferedEvents (LoadSnapshot Book.new c2Snapshot).1)
      c2DeleteAsk)
    c2InsertAsk

/-- A fresh initialized book (lastUpdateID 0). -/
def c3Book : Book := { Book.new with initialized := true }

/-- An in-sequence update for `c3Book` (prevUpdateID 0, finalUpdateID 7). -/
def c3Update : DepthUpdate := ⟨1, 7, 0, [], []⟩

/-- An initialized book at lastUpdateID 100. -/
def c4Book : Book := { Book.new with initialized := true, lastUpdateID := 100 }

/-- A stale update (finalUpdateID 90 ≤ 100) whose prevUpdateID equals the
book's lastUpdateID, carrying a bid. -/
def c4Stale : DepthUpdate :=
  ⟨90, 90, 100, [⟨⟨"50", some 50⟩, ⟨"1", some 1⟩⟩], []⟩

/-- A stale update (finalUpdateID 90 ≤ 100) with prevUpdateID 50 ≠ 100. -/
def c4StaleGap : DepthUpdate :=
  ⟨90, 90, 50, [⟨⟨"50", some 50⟩, ⟨"1", some 1⟩⟩], []⟩

/-- Snapshot with an empty bid side and one ask at 100. -/
def c5Snapshot : Snapshot := ⟨1, [], [⟨⟨"100", some 100⟩, ⟨"1", some 1⟩⟩]⟩

/-- An initialized book with no bids and one ask at 100. -/
def c5Book : Book := ProcessBufferedEvents (LoadSnapshot Book.new c5Snapshot).1

/-- A book with cached bestBid 0 and bestAsk 100 (witness input). -/
def c5WBook : Book := { Book.new with bestAsk := 100 }

/-- An initialized book at lastUpdateID 0, as produced by loading an OKX
snapshot (whose lastUpdateId is always 0) into a fresh book. -/
def c6WBook : Book := { Book.new with initialized := true }

/-- A valid snapshot establishing a non-trivial pre-call state. -/
def c9OkSnapshot : Snapshot :=
  ⟨5, [⟨⟨"90", some 90⟩, ⟨"1", some 1⟩⟩],
      [⟨⟨"100", some 100⟩, ⟨"2", some 2⟩⟩]⟩

/-- The pre-call book for the failing LoadSnapshot: one bid, one ask,
lastUpdateID 5. -/
def c9Pre : Book := (LoadSnapshot Book.new c9OkSnapshot).1

/-- A snapshot whose second bid has an unparsable quantity string. -/
def c9BadSnapshot : Snapshot :=
  ⟨200, [⟨⟨"95", some 95⟩, ⟨"1", some 1⟩⟩, ⟨⟨"94", some 94⟩, ⟨"x", none⟩⟩],
        [⟨⟨"105", some 105⟩, ⟨"3", some 3⟩⟩]⟩

/-- The failing LoadSnapshot call on the non-trivial pre-call state. -/
def c9Res : Book × Bool := LoadSnapshot c9Pre c9BadSnapshot

/-- A book holding one bid at key "50" and one ask at key "70" (witness input
for C10). -/
def c10b : Book :=
  { Book.new with bids := [(⟨"50", some 50⟩, ⟨50, 2⟩)], bestBid := 50
                  asks := [(⟨"70", some 70⟩, ⟨70, 3⟩)], bestAsk := 70 }

/-- The bid price string "50". -/
def c10pr : RawStr := ⟨"50", some 50⟩

/-- The ask price string "70". -/
def c10apr : RawStr := ⟨"70", some 70⟩

/-- An unparsable quantity string. -/
def c10qrBad : RawStr := ⟨"zz", none⟩

/-- An unparsable price string. -/
def c10prBad : RawStr := ⟨"yy", none⟩

/-- The quantity string "1". -/
def c10qr1 : RawStr := ⟨"1", some 1⟩

/-! Preservation lemmas for the embedded engine functions. -/

theorem calculateLiquidityDepth_bids (b : Book) :
    (calculateLiquidityDepth b).bids = b.bids := by
  unfold calculateLiquidityDepth; split <;> rfl

theorem calculateLiquidityDepth_asks (b : Book) :
    (calculateLiquidityDepth b).asks = b.asks := by
  unfold calculateLiquidityDepth; split <;> rfl

theorem calculateLiquidityDepth_lastUpdateID (b : Book) :
    (calculateLiquidityDepth b).lastUpdateID = b.lastUpdateID := by
  unfold calculateLiquidityDepth; split <;> rfl

theorem calculateLiquidityDepth_bestBid (b : Book) :
    (calculateLiquidityDepth b).bestBid = b.bestBid := by
  unfold calculateLiquidityDepth; split <;> rfl

theorem calculateLiquidityDepth_bestAsk (b : Book) :
    (calculateLiquidityDepth b).bestAsk = b.bestAsk := by
  unfold calculateLiquidityDepth; split <;> rfl

theorem calculateLiquidityDepth_stats_bestBid (b : Book) :
    (calculateLiquidityDepth b).stats.bestBid = b.stats.bestBid := by
  unfold calculateLiquidityDepth; split <;> rfl

theorem calculateLiquidityDepth_stats_bestAsk (b : Book) :
    (calculateLiquidityDepth b).stats.bestAsk = b.stats.bestAsk := by
  unfold calculateLiquidityDepth; split <;> rfl

theorem updateCachedStats_bids (b : Book) :
    (updateCachedStats b).bids = b.bids := by
  simp only [updateCachedStats]; rw [calculateLiquidityDepth_bids]

theorem updateCachedStats_asks (b : Book) :
    (updateCachedStats b).asks = b.asks := by
  simp only [updateCachedStats]; rw [calculateLiquidityDepth_asks]

theorem updateCachedStats_lastUpdateID (b : Book) :
    (updateCachedStats b).lastUpdateID = b.lastUpdateID := by
  simp only [updateCachedStats]; rw [calculateLiquidityDepth_lastUpdateID]

theorem updateCachedStats_bestBid (b : Book) :
    (updateCachedStats b).bestBid = b.bestBid := by
  simp only [updateCachedStats]; rw [calculateLiquidityDepth_bestBid]

theorem updateCachedStats_bestAsk (b : Book) :
    (updateCachedStats b).bestAsk = b.bestAsk := by
  simp only [updateCachedStats]; rw [calculateLiquidityDepth_bestAsk]

theorem updateCachedStats_stats_bestBid (b : Book) :
    (updateCachedStats b).stats.bestBid = b.bestBid := by
  simp only [updateCachedStats]; rw [calculateLiquidityDepth_stats_bestBid]

theorem updateCachedStats_stats_bestAsk (b : Book) :
    (updateCachedStats b).stats.bestAsk = b.bestAsk := by
  simp only [updateCachedStats]; rw [calculateLiquidityDepth_stats_bestAsk]

theorem recalculateBestBid_bids (b : Book) :
    (recalculateBestBid b).bids = b.bids := rfl

theorem recalculateBestAsk_bids (b : Book) :
    (recalculateBestAsk b).bids = b.bids := rfl

theorem recalculateBestBid_bestAsk (b : Book) :
    (recalculateBestBid b).bestAsk = b.bestAsk := rfl

theorem applyUpdate_lastUpdateID (b : Book) (u : DepthUpdate) :
    (applyUpdate b u).lastUpdateID = u.finalUpdateID := by
  simp only [applyUpdate]
  rw [updateCachedStats_lastUpdateID]

/-- C3: for every initialized book and every depth update whose prevUpdateId
equals the book's current lastUpdateId, HandleDepthUpdate applies the update
(it equals applyUpdate, which merges the update's levels into the book) and
lastUpdateId advances to the update's finalUpdateId. -/
theorem c3_inSequence_applies (b : Book) (u : DepthUpdate)
    (hinit : b.initialized = true) (hprev : u.prevUpdateID = b.lastUpdateID) :
    HandleDepthUpdate b u = applyUpdate b u ∧
    (HandleDepthUpdate b u).lastUpdateID = u.finalUpdateID := by
  have h1 : HandleDepthUpdate b u = applyUpdate b u := by
    simp [HandleDepthUpdate, hinit, hprev]
  exact ⟨h1, by rw [h1, applyUpdate_lastUpdateID]⟩

/-- Witness for C3 at a concrete initialized book and in-sequence update. -/
theorem c3_inSequence_applies_witness :
    (c3Book.initialized = true ∧ c3Update.prevUpdateID = c3Book.lastUpdateID) ∧
    (HandleDepthUpdate c3Book c3Update = applyUpdate c3Book c3Update ∧
     (HandleDepthUpdate c3Book c3Update).lastUpdateID = c3Update.finalUpdateID) :=
  ⟨⟨rfl, rfl⟩, c3_inSequence_applies c3Book c3Update rfl rfl⟩

/-- C4 counterexample: a depth update whose finalUpdateId (90) is at most the
initialized book's lastUpdateId (100) but whose prevUpdateId equals the
lastUpdateId is applied by HandleDepthUpdate — the book's levels change, so
the claim's initialized case ("leaves the book's levels and stats unchanged")
is false at this input. -/
theorem c4_stale_counterexample :
    c4Stale.finalUpdateID ≤ c4Book.lastUpdateID ∧
    c4Book.initialized = true ∧
    (HandleDepthUpdate c4Book c4Stale).bids ≠ c4Book.bids ∧
    (HandleDepthUpdate c4Book c4Stale).lastUpdateID = 90 := by
  refine ⟨by decide, rfl, by decide, by decide⟩

/-- C4 amended: for every depth update u with finalUpdateId ≤ the book's
lastUpdateId, (i) the buffer-walk retention test of ProcessBufferedEvents
rejects u (so after buffering it is discarded as long as lastUpdateId has not
moved below u.finalUpdateId), (ii) an uninitialized book only appends u to
the event buffer, and (iii) an initialized book whose lastUpdateId differs
from u.prevUpdateId also only appends u to the buffer, leaving levels and
stats unchanged; when u.prevUpdateId equals lastUpdateId the update is
applied instead (see the counterexample). -/
theorem c4_stale_update_buffered (b : Book) (u : DepthUpdate)
    (hstale : u.finalUpdateID ≤ b.lastUpdateID) :
    retainEvent b.lastUpdateID u = false ∧
    (b.initialized = false →
      HandleDepthUpdate b u = { b with eventBuffer := b.eventBuffer ++ [u] }) ∧
    (b.initialized = true → u.prevUpdateID ≠ b.lastUpdateID →
      HandleDepthUpdate b u = { b with eventBuffer := b.eventBuffer ++ [u] }) := by
  refine ⟨?_, ?_, ?_⟩
  · simp only [retainEvent, Bool.and_eq_false_iff, decide_eq_false_iff_not, not_lt]
    left; exact hstale
  · intro h; simp [HandleDepthUpdate, h]
  · intro hinit hprev
    simp only [HandleDepthUpdate, hinit, Bool.true_eq_false, if_false, if_neg, hprev,
      ne_eq, not_false_eq_true, if_true]
    rw [if_neg]
    rintro ⟨-, h2⟩
    omega

/-- Witness for C4 amended at a concrete initialized book and stale gapped
update. -/
theorem c4_stale_update_buffered_witness :
    c4StaleGap.finalUpdateID ≤ c4Book.lastUpdateID ∧
    (retainEvent c4Book.lastUpdateID c4StaleGap = false ∧
     (c4Book.initialized = false →
       HandleDepthUpdate c4Book c4StaleGap =
         { c4Book with eventBuffer := c4Book.eventBuffer ++ [c4StaleGap] }) ∧
     (c4Book.initialized = true → c4StaleGap.prevUpdateID ≠ c4Book.lastUpdateID →
       HandleDepthUpdate c4Book c4StaleGap =
         { c4Book with eventBuffer := c4Book.eventBuffer ++ [c4StaleGap] })) :=
  ⟨by decide, c4_stale_update_buffered c4Book c4StaleGap (by decide)⟩

/-- C5 counterexample: an initialized book whose bid side is empty (cached
bestBid 0) and whose ask side holds one level at 100 publishes
midPrice = (0 + 100) / 2 = 50, not 0 — the claim that both terms zero out and
the published mid is zero is false at this input (the liquidity bands are
indeed all zero). -/
theorem c5_mid_counterexample :
    c5Book.bestBid = 0 ∧ c5Book.asks ≠ [] ∧
    buildStatsMidPrice c5Book.stats = 50 ∧
    buildStatsMidPrice c5Book.stats ≠ 0 ∧
    c5Book.stats.bidLiquidity05Pct = 0 ∧ c5Book.stats.askLiquidity05Pct = 0 := by
  have hb : c5Book.stats.bestBid = 0 := by decide
  have ha : c5Book.stats.bestAsk = 100 := by decide
  have hmid : buildStatsMidPrice c5Book.stats = 50 := by
    rw [buildStatsMidPrice, hb, ha]; norm_num
  exact ⟨by decide, by decide, hmid, by rw [hmid]; norm_num, by decide, by decide⟩

/-- C5 amended: whenever a cached best price is zero (one side empty), every
liquidity-band field written by the stats refresh is zero, and the published
midPrice equals (bestBid + bestAsk) / 2 — half of the non-empty side's best
price — which is zero only when both cached best prices are zero. -/
theorem c5_emptySide_stats (b : Book)
    (h : b.bestBid = 0 ∨ b.bestAsk = 0) :
    (updateCachedStats b).stats.bidLiquidity05Pct = 0 ∧
    (updateCachedStats b).stats.askLiquidity05Pct = 0 ∧
    (updateCachedStats b).stats.bidLiquidity2Pct = 0 ∧
    (updateCachedStats b).stats.askLiquidity2Pct = 0 ∧
    (updateCachedStats b).stats.bidLiquidity10Pct = 0 ∧
    (updateCachedStats b).stats.askLiquidity10Pct = 0 ∧
    (updateCachedStats b).stats.deltaLiquidity05Pct = 0 ∧
    (updateCachedStats b).stats.deltaLiquidity2Pct = 0 ∧
    (updateCachedStats b).stats.deltaLiquidity10Pct = 0 ∧
    buildStatsMidPrice (updateCachedStats b).stats = (b.bestBid + b.bestAsk) / 2 ∧
    (buildStatsMidPrice (updateCachedStats b).stats = 0 ↔
      b.bestBid = 0 ∧ b.bestAsk = 0) := by
  have hmid : buildStatsMidPrice (updateCachedStats b).stats =
      (b.bestBid + b.bestAsk) / 2 := by
    rw [buildStatsMidPrice, updateCachedStats_stats_bestBid,
      updateCachedStats_stats_bestAsk]
  have hiff : buildStatsMidPrice (updateCachedStats b).stats = 0 ↔
      b.bestBid = 0 ∧ b.bestAsk = 0 := by
    rw [hmid]
    rcases h with h | h <;> rw [h] <;>
      constructor <;> intro hx <;>
      first
        | exact ⟨by linarith [div_eq_zero_iff.mp hx], by
            rcases div_eq_zero_iff.mp hx with h2 | h2
            · linarith
            · norm_num at h2⟩
        | (rcases hx with ⟨h1, h2⟩; rw [h1, h2]; norm_num)
  refine ⟨?_, ?_, ?_, ?_, ?_, ?_, ?_, ?_, ?_, hmid, hiff⟩ <;>
    · simp only [updateCachedStats, calculateLiquidityDepth]
      rw [if_pos h]

/-- Witness for C5 amended at a concrete book with an empty bid side. -/
theorem c5_emptySide_stats_witness :
    (c5WBook.bestBid = 0 ∨ c5WBook.bestAsk = 0) ∧
    buildStatsMidPrice (updateCachedStats c5WBook).stats =
      (c5WBook.bestBid + c5WBook.bestAsk) / 2 ∧
    (updateCachedStats c5WBook).stats.bidLiquidity05Pct = 0 :=
  ⟨Or.inl rfl,
   (c5_emptySide_stats c5WBook (Or.inl rfl)).2.2.2.2.2.2.2.2.2.1,
   (c5_emptySide_stats c5WBook (Or.inl rfl)).1⟩

/-- C6 counterexample: the depth update built by the OKX poll carries
firstUpdateId = finalUpdateId = prevUpdateId = 0 for every poll, so
prevUpdateId + 1 is 1 ≠ 0 = firstUpdateId — the synthesized-monotonic-ids
claim is false for the OKX adapter at this concrete snapshot. -/
theorem c6_okx_ids_counterexample :
    (okxPollUpdate (convertSnapshotOKX [] [])).prevUpdateID + 1 ≠
      (okxPollUpdate (convertSnapshotOKX [] [])).firstUpdateID ∧
    (okxPollUpdate (convertSnapshotOKX [] [])).finalUpdateID = 0 ∧
    (okxPollUpdate (convertSnapshotOKX [] [])).firstUpdateID = 0 := by
  refine ⟨by decide, rfl, rfl⟩

/-- C6 amended: every depth update emitted by the OKX adapter carries the
constant sequence ids firstUpdateId = finalUpdateId = prevUpdateId = 0 and
the full polled snapshot's levels; the OKX snapshot itself carries
lastUpdateId 0, so on a book at lastUpdateID 0 every polled update satisfies
prevUpdateId = lastUpdateId and HandleDepthUpdate applies it (gap detection
degenerates to always-in-sequence; the levels are merged, and applying keeps
lastUpdateID at 0, so this persists across polls). -/
theorem c6_okx_zero_ids (bids asks : List WireLevel) (b : Book)
    (hinit : b.initialized = true) (hlast : b.lastUpdateID = 0) :
    (okxPollUpdate (convertSnapshotOKX bids asks)).firstUpdateID = 0 ∧
    (okxPollUpdate (convertSnapshotOKX bids asks)).finalUpdateID = 0 ∧
    (okxPollUpdate (convertSnapshotOKX bids asks)).prevUpdateID = 0 ∧
    (okxPollUpdate (convertSnapshotOKX bids asks)).bids = bids ∧
    (okxPollUpdate (convertSnapshotOKX bids asks)).asks = asks ∧
    (convertSnapshotOKX bids asks).lastUpdateID = 0 ∧
    HandleDepthUpdate b (okxPollUpdate (convertSnapshotOKX bids asks)) =
      applyUpdate b (okxPollUpdate (convertSnapshotOKX bids asks)) ∧
    (HandleDepthUpdate b (okxPollUpdate (convertSnapshotOKX bids asks))).lastUpdateID
      = 0 := by
  have happ : HandleDepthUpdate b (okxPollUpdate (convertSnapshotOKX bids asks)) =
      applyUpdate b (okxPollUpdate (convertSnapshotOKX bids asks)) := by
    simp [HandleDepthUpdate, hinit, hlast, okxPollUpdate, convertSnapshotOKX]
  exact ⟨rfl, rfl, rfl, rfl, rfl, rfl, happ,
    by rw [happ, applyUpdate_lastUpdateID]; rfl⟩

/-- Witness for C6 amended at a concrete empty snapshot and fresh initialized
book. -/
theorem c6_okx_zero_ids_witness :
    (c6WBook.initialized = true ∧ c6WBook.lastUpdateID = 0) ∧
    ((okxPollUpdate (convertSnapshotOKX [] [])).firstUpdateID = 0 ∧
     (okxPollUpdate (convertSnapshotOKX [] [])).finalUpdateID = 0 ∧
     (okxPollUpdate (convertSnapshotOKX [] [])).prevUpdateID = 0 ∧
     (okxPollUpdate (convertSnapshotOKX [] [])).bids = [] ∧
     (okxPollUpdate (convertSnapshotOKX [] [])).asks = [] ∧
     (convertSnapshotOKX [] []).lastUpdateID = 0 ∧
     HandleDepthUpdate c6WBook (okxPollUpdate (convertSnapshotOKX [] [])) =
       applyUpdate c6WBook (okxPollUpdate (convertSnapshotOKX [] [])) ∧
     (HandleDepthUpdate c6WBook
        (okxPollUpdate (convertSnapshotOKX [] []))).lastUpdateID = 0) :=
  ⟨⟨rfl, rfl⟩, c6_okx_zero_ids [] [] c6WBook rfl rfl⟩

/-- C1 counterexample: in scenario E1 (snapshot lastUpdateId 100; buffered
events with final ids 98, 101 and 102, the last with firstUpdateId 102),
ProcessBufferedEvents leaves lastUpdateId at 101, not 102 — the buffer walk
tests firstUpdateId ≤ lastUpdateId + 1 against the snapshot's lastUpdateId
(100), so the (102, 102) event is never retained. -/
theorem c1_e1_counterexample :
    c1Final.lastUpdateID = 101 ∧ c1Final.lastUpdateID ≠ 102 := by
  exact ⟨by decide, by decide⟩

/-- C1 amended: in scenario E1, ProcessBufferedEvents discards the event with
final id 98 and also the (firstUpdateId 102, finalUpdateId 102) event (its
firstUpdateId exceeds the snapshot lastUpdateId + 1 = 101 at the buffer
walk), applies only the retained (99, 101) event, marks the book initialized,
clears the buffer, and leaves lastUpdateId = 101. -/
theorem c1_e1_buffered_init :
    retainEvent 100 c1e98 = false ∧
    retainEvent 100 c1e101 = true ∧
    retainEvent 100 c1e102 = false ∧
    c1Final.initialized = true ∧
    c1Final.lastUpdateID = 101 ∧
    c1Final.eventBuffer = [] ∧
    c1Final.stats.eventsProcessed = 1 := by
  exact ⟨by decide, by decide, by decide, by decide, by decide, by decide, by decide⟩

/-- C2 (code bug): on a correctly snapshotted, initialized book, two valid
in-sequence updates — one deleting the only ask at 100, the next inserting an
ask at 105 — leave the cached bestAsk at 0 while the ask side holds the level
at 105 with minimum price 105: after the ask side empties (bestAsk 0), the
insert path compares price < bestAsk against 0, which never fires, so the
cache is not restored. The claimed invariant bestAsk = min ask price fails;
the bid side (a max against 0) does not have this problem. -/
theorem c2_bestAsk_cache_bug :
    c2Final.asks = [(⟨"105", some 105⟩, ⟨105, 1⟩)] ∧
    minPriceOr askSentinel c2Final.asks = 105 ∧
    c2Final.bestAsk = 0 ∧
    c2Final.bestAsk ≠ minPriceOr askSentinel c2Final.asks ∧
    c2Final.stats.bestAsk = 0 := by
  exact ⟨by decide, by decide, by decide, by decide, by decide⟩

theorem loadBids_lastUpdateID (es : List WireLevel) :
    ∀ b : Book, ((loadBids es b).1).lastUpdateID = b.lastUpdateID := by
  induction es with
  | nil => intro b; rfl
  | cons e rest ih =>
    intro b
    rw [loadBids]
    cases h1 : e.price.val with
    | none => rfl
    | some p =>
      cases h2 : e.quantity.val with
      | none => rfl
      | some q =>
        simp only
        split
        · exact ih b
        · rw [ih]; split <;> rfl

theorem loadAsks_lastUpdateID (es : List WireLevel) :
    ∀ b : Book, ((loadAsks es b).1).lastUpdateID = b.lastUpdateID := by
  induction es with
  | nil => intro b; rfl
  | cons e rest ih =>
    intro b
    rw [loadAsks]
    cases h1 : e.price.val with
    | none => rfl
    | some p =>
      cases h2 : e.quantity.val with
      | none => rfl
      | some q =>
        simp only
        split
        · exact ih b
        · rw [ih]; split <;> rfl

theorem updateStats_lastUpdateID (b : Book) :
    (updateStats b).lastUpdateID = b.lastUpdateID := by
  simp only [updateStats]; rw [updateCachedStats_lastUpdateID]

theorem LoadSnapshot_lastUpdateID (b : Book) (s : Snapshot) :
    ((LoadSnapshot b s).1).lastUpdateID = s.lastUpdateID := by
  simp only [LoadSnapshot]
  rcases hb : loadBids s.bids
      { b with lastUpdateID := s.lastUpdateID, bids := [], asks := []
               bestBid := 0, bestAsk := askSentinel } with ⟨b1, e1⟩
  have hb1 : b1.lastUpdateID = s.lastUpdateID := by
    have h := loadBids_lastUpdateID s.bids
      { b with lastUpdateID := s.lastUpdateID, bids := [], asks := []
               bestBid := 0, bestAsk := askSentinel }
    rw [hb] at h
    exact h
  cases e1 with
  | true => simp only [hb]; exact hb1
  | false =>
    rcases ha : loadAsks s.asks b1 with ⟨b2, e2⟩
    have hb2 : b2.lastUpdateID = b1.lastUpdateID := by
      have h := loadAsks_lastUpdateID s.asks b1
      rw [ha] at h
      exact h
    cases e2 with
    | true => simp only [hb, ha]; rw [hb2, hb1]
    | false =>
      simp only [hb, ha]
      rw [updateStats_lastUpdateID, hb2, hb1]

/-- C9: LoadSnapshot is not atomic on a parse error. In general the book's
lastUpdateID is already overwritten with the snapshot's id (this holds for
every call, error or not, since the overwrite happens before any parsing);
and at a concrete failing snapshot — second bid quantity unparsable — the
call reports the error while the level maps have been reset and the bid
parsed before the failing entry has been inserted, so the pre-call state is
lost. -/
theorem c9_loadSnapshot_not_atomic :
    (∀ (b : Book) (s : Snapshot),
      ((LoadSnapshot b s).1).lastUpdateID = s.lastUpdateID) ∧
    c9Res.2 = true ∧
    (c9Res.1).lastUpdateID = 200 ∧
    (c9Res.1).bids = [(⟨"95", some 95⟩, ⟨95, 1⟩)] ∧
    (c9Res.1).asks = [] ∧
    c9Pre.bids ≠ (c9Res.1).bids ∧ c9Pre.asks ≠ (c9Res.1).asks :=
  ⟨LoadSnapshot_lastUpdateID, by decide, by decide, by decide, by decide,
   by decide, by decide⟩

/-- C10: HandleDepthUpdate is total (it returns a book for every input — the
embedding has no error channel because the Go code ignores the parse errors
in applyUpdate), a bid whose quantity string fails parsing is treated as
quantity zero and deletes the level stored under that raw price string when
present, and a bid whose price string fails parsing but whose quantity parses
non-zero is inserted under the raw string key with price decimal 0, the
best-bid comparison seeing 0 (so a non-negative cached best bid is never
displaced by it). -/
theorem askFold_fst_bids (ls : List WireLevel) :
    ∀ p : Book × Bool, (((ls.foldl applyAskLevel p).1)).bids = (p.1).bids := by
  induction ls with
  | nil => intro p; rfl
  | cons e rest ih =>
    intro p
    rw [List.foldl_cons, ih]
    simp only [applyAskLevel]
    split
    · split <;> rfl
    · split <;> rfl

theorem askFold_fst_bestBid (ls : List WireLevel) :
    ∀ p : Book × Bool, (((ls.foldl applyAskLevel p).1)).bestBid = (p.1).bestBid := by
  induction ls with
  | nil => intro p; rfl
  | cons e rest ih =>
    intro p
    rw [List.foldl_cons, ih]
    simp only [applyAskLevel]
    split
    · split <;> rfl
    · split <;> rfl

theorem applyUpdate_bids (b : Book) (u : DepthUpdate) :
    (applyUpdate b u).bids = ((u.bids.foldl applyBidLevel (b, false)).1).bids := by
  simp only [applyUpdate]
  rw [updateCachedStats_bids]
  dsimp only
  split <;> split <;> exact askFold_fst_bids u.asks _

theorem applyUpdate_bestBid_of_flag_false (b : Book) (u : DepthUpdate)
    (h2 : (u.bids.foldl applyBidLevel (b, false)).2 = false) :
    (applyUpdate b u).bestBid = ((u.bids.foldl applyBidLevel (b, false)).1).bestBid := by
  simp only [applyUpdate]
  rw [updateCachedStats_bestBid]
  dsimp only
  rw [h2]
  simp only [Bool.false_eq_true, if_false]
  split <;> exact askFold_fst_bestBid u.asks _

theorem applyUpdate_asks_of_no_bids (b : Book) (u : DepthUpdate)
    (hb : u.bids = []) :
    (applyUpdate b u).asks = ((u.asks.foldl applyAskLevel (b, false)).1).asks := by
  simp only [applyUpdate, hb, List.foldl_nil]
  rw [updateCachedStats_asks]
  dsimp only
  simp only [Bool.false_eq_true, if_false]
  split <;> rfl

theorem applyUpdate_bestAsk_of_no_bids_flag_false (b : Book) (u : DepthUpdate)
    (hb : u.bids = [])
    (h2 : (u.asks.foldl applyAskLevel (b, false)).2 = false) :
    (applyUpdate b u).bestAsk = ((u.asks.foldl applyAskLevel (b, false)).1).bestAsk := by
  simp only [applyUpdate, hb, List.foldl_nil]
  rw [updateCachedStats_bestAsk]
  dsimp only
  rw [h2]
  simp only [Bool.false_eq_true, if_false]

/-- C10: HandleDepthUpdate is total (it returns a book for every input — the
embedding has no error channel because the Go code ignores the parse errors
in applyUpdate). On either side, a level whose quantity string fails parsing
is treated as quantity zero and deletes the level stored under that raw price
string when present; a level whose price string fails parsing but whose
quantity parses non-zero is inserted under the raw string key with price
decimal 0, the best-price comparison seeing 0 — on the bid side a
non-negative cached best bid is never displaced by it, while on the ask side
the comparison 0 < bestAsk fires and a positive cached best ask is displaced
to 0. -/
theorem c10_parse_error_semantics (b : Book) (pr qr : RawStr) (i j k : ℤ) :
    (qr.val = none → mapContains pr b.bids = true →
      (applyUpdate b ⟨i, j, k, [⟨pr, qr⟩], []⟩).bids = mapDelete pr b.bids) ∧
    (∀ q : ℚ, qr.val = some q → q ≠ 0 → pr.val = none →
      (applyUpdate b ⟨i, j, k, [⟨pr, qr⟩], []⟩).bids = mapInsert pr ⟨0, q⟩ b.bids ∧
      (0 ≤ b.bestBid →
        (applyUpdate b ⟨i, j, k, [⟨pr, qr⟩], []⟩).bestBid = b.bestBid)) ∧
    (qr.val = none → mapContains pr b.asks = true →
      (applyUpdate b ⟨i, j, k, [], [⟨pr, qr⟩]⟩).asks = mapDelete pr b.asks) ∧
    (∀ q : ℚ, qr.val = some q → q ≠ 0 → pr.val = none →
      (applyUpdate b ⟨i, j, k, [], [⟨pr, qr⟩]⟩).asks = mapInsert pr ⟨0, q⟩ b.asks ∧
      (0 < b.bestAsk →
        (applyUpdate b ⟨i, j, k, [], [⟨pr, qr⟩]⟩).bestAsk = 0)) := by
  refine ⟨?_, ?_, ?_, ?_⟩
  · intro hq hc
    rw [applyUpdate_bids, List.foldl_cons, List.foldl_nil]
    simp [applyBidLevel, hq, hc]
  · intro q hq hqne hp
    have hins :
        applyBidLevel ((b, false) : Book × Bool) ⟨pr, qr⟩ =
          (if b.bestBid < 0
           then { b with bids := mapInsert pr ⟨0, q⟩ b.bids, bestBid := 0 }
           else { b with bids := mapInsert pr ⟨0, q⟩ b.bids }, false) := by
      simp only [applyBidLevel, hq, hp, Option.getD_none, Option.getD_some,
        if_neg hqne]
    constructor
    · rw [applyUpdate_bids, List.foldl_cons, List.foldl_nil, hins]
      split <;> rfl
    · intro hbb
      have h2 :
          ((([⟨pr, qr⟩] : List WireLevel).foldl applyBidLevel (b, false)).2) = false := by
        rw [List.foldl_cons, List.foldl_nil, hins]
      rw [applyUpdate_bestBid_of_flag_false b _ h2, List.foldl_cons,
        List.foldl_nil, hins]
      rw [if_neg (not_lt.mpr hbb)]
  · intro hq hc
    rw [applyUpdate_asks_of_no_bids b _ rfl, List.foldl_cons, List.foldl_nil]
    simp [applyAskLevel, hq, hc]
  · intro q hq hqne hp
    have hins :
        applyAskLevel ((b, false) : Book × Bool) ⟨pr, qr⟩ =
          (if 0 < b.bestAsk
           then { b with asks := mapInsert pr ⟨0, q⟩ b.asks, bestAsk := 0 }
           else { b with asks := mapInsert pr ⟨0, q⟩ b.asks }, false) := by
      simp only [applyAskLevel, hq, hp, Option.getD_none, Option.getD_some,
        if_neg hqne]
    constructor
    · rw [applyUpdate_asks_of_no_bids b _ rfl, List.foldl_cons,
        List.foldl_nil, hins]
      split <;> rfl
    · intro hba
      have h2 :
          ((([⟨pr, qr⟩] : List WireLevel).foldl applyAskLevel (b, false)).2) = false := by
        rw [List.foldl_cons, List.foldl_nil, hins]
      rw [applyUpdate_bestAsk_of_no_bids_flag_false b _ rfl h2,
        List.foldl_cons, List.foldl_nil, hins]
      rw [if_pos hba]

/-- Witness for C10: a concrete book with one stored bid at key "50"; a bid
entry with raw price "50" and unparsable quantity deletes it, and a bid entry
with unparsable price "yy" and quantity "1" is inserted under key "yy" with
price 0. -/
theorem c10_parse_error_semantics_witness :
    (c10qrBad.val = none ∧ mapContains c10pr c10b.bids = true ∧
      (applyUpdate c10b ⟨1, 2, 0, [⟨c10pr, c10qrBad⟩], []⟩).bids =
        mapDelete c10pr c10b.bids) ∧
    (c10qr1.val = some 1 ∧ c10prBad.val = none ∧
      (applyUpdate c10b ⟨1, 2, 0, [⟨c10prBad, c10qr1⟩], []⟩).bids =
        mapInsert c10prBad ⟨0, 1⟩ c10b.bids) ∧
    (mapContains c10apr c10b.asks = true ∧
      (applyUpdate c10b ⟨1, 2, 0, [], [⟨c10apr, c10qrBad⟩]⟩).asks =
        mapDelete c10apr c10b.asks) ∧
    ((applyUpdate c10b ⟨1, 2, 0, [], [⟨c10prBad, c10qr1⟩]⟩).asks =
        mapInsert c10prBad ⟨0, 1⟩ c10b.asks) ∧
    (0 < c10b.bestAsk ∧
      (applyUpdate c10b ⟨1, 2, 0, [], [⟨c10prBad, c10qr1⟩]⟩).bestAsk = 0) :=
  ⟨⟨rfl, by decide,
    (c10_parse_error_semantics c10b c10pr c10qrBad 1 2 0).1 rfl (by decide)⟩,
   ⟨rfl, rfl,
    ((c10_parse_error_semantics c10b c10prBad c10qr1 1 2 0).2.1 1 rfl
      (by norm_num) rfl).1⟩,
   ⟨by decide,
    (c10_parse_error_semantics c10b c10apr c10qrBad 1 2 0).2.2.1 rfl (by decide)⟩,
   ((c10_parse_error_semantics c10b c10prBad c10qr1 1 2 0).2.2.2 1 rfl
      (by norm_num) rfl).1,
   ⟨by decide,
    ((c10_parse_error_semantics c10b c10prBad c10qr1 1 2 0).2.2.2 1 rfl
      (by norm_num) rfl).2 (by decide)⟩⟩

/-! Aggregation lemmas. -/

theorem roundToTickBid_le (tick p : ℚ) (ht : 0 < tick) :
    roundToTickBid tick p ≤ p := by
  rw [roundToTickBid, if_neg (ne_of_gt ht)]
  have h1 : ((⌊p / tick⌋ : ℚ)) ≤ p / tick := Int.floor_le _
  have h2 := mul_le_mul_of_nonneg_right h1 (le_of_lt ht)
  rwa [div_mul_cancel₀ _ (ne_of_gt ht)] at h2

theorem le_roundToTickAsk (tick p : ℚ) (ht : 0 < tick) :
    p ≤ roundToTickAsk tick p := by
  rw [roundToTickAsk, if_neg (ne_of_gt ht)]
  have h1 : p / tick ≤ ((⌈p / tick⌉ : ℚ)) := Int.le_ceil _
  have h2 := mul_le_mul_of_nonneg_right h1 (le_of_lt ht)
  rwa [div_mul_cancel₀ _ (ne_of_gt ht)] at h2

theorem roundToTickBid_idem (tick p : ℚ) :
    roundToTickBid tick (roundToTickBid tick p) = roundToTickBid tick p := by
  rcases eq_or_ne tick 0 with ht | ht
  · rw [roundToTickBid, if_pos ht]
  · have h1 : roundToTickBid tick p = ⌊p / tick⌋ * tick := by
      rw [roundToTickBid, if_neg ht]
    rw [h1, roundToTickBid, if_neg ht, mul_div_cancel_right₀ _ ht,
      Int.floor_intCast]

theorem roundToTickAsk_idem (tick p : ℚ) :
    roundToTickAsk tick (roundToTickAsk tick p) = roundToTickAsk tick p := by
  rcases eq_or_ne tick 0 with ht | ht
  · rw [roundToTickAsk, if_pos ht]
  · have h1 : roundToTickAsk tick p = ⌈p / tick⌉ * tick := by
      rw [roundToTickAsk, if_neg ht]
    rw [h1, roundToTickAsk, if_neg ht, mul_div_cancel_right₀ _ ht,
      Int.ceil_intCast]

theorem addBucket_price_mem (p q : ℚ) (acc : List PriceLevel) (l : PriceLevel)
    (hl : l ∈ addBucket p q acc) :
    l.price = p ∨ ∃ l₀ ∈ acc, l.price = l₀.price := by
  rw [addBucket] at hl
  split at hl
  · rcases List.mem_map.mp hl with ⟨l₀, hl₀, heq⟩
    by_cases hc : l₀.price = p
    · rw [if_pos hc] at heq
      left; rw [← heq]
    · rw [if_neg hc] at heq
      right; exact ⟨l₀, hl₀, by rw [← heq]⟩
  · rcases List.mem_append.mp hl with h | h
    · right; exact ⟨l, h, rfl⟩
    · left
      have hl2 := List.mem_singleton.mp h
      rw [hl2]

theorem aggregateWith_mem_aux (f : ℚ → ℚ) :
    ∀ (ls acc : List PriceLevel) (l : PriceLevel),
      l ∈ ls.foldl (fun a x => addBucket (f x.price) x.quantity a) acc →
      (∃ l₀ ∈ acc, l.price = l₀.price) ∨ ∃ x ∈ ls, l.price = f x.price := by
  intro ls
  induction ls with
  | nil =>
    intro acc l hl
    left; exact ⟨l, hl, rfl⟩
  | cons x xs ih =>
    intro acc l hl
    rw [List.foldl_cons] at hl
    rcases ih _ l hl with ⟨l₀, hl₀, heq⟩ | ⟨y, hy, heq⟩
    · rcases addBucket_price_mem _ _ _ _ hl₀ with h | ⟨l₁, hl₁, heq2⟩
      · right; exact ⟨x, List.mem_cons_self x xs, heq.trans h⟩
      · left; exact ⟨l₁, hl₁, heq.trans heq2⟩
    · right; exact ⟨y, List.mem_cons_of_mem x hy, heq⟩

theorem aggregateWith_price_mem (f : ℚ → ℚ) (ls : List PriceLevel)
    (l : PriceLevel) (hl : l ∈ aggregateWith f ls) :
    ∃ x ∈ ls, l.price = f x.price := by
  rcases aggregateWith_mem_aux f ls [] l hl with ⟨l₀, hl₀, _⟩ | h
  · exact absurd hl₀ (List.not_mem_nil l₀)
  · exact h

/-- The price components of a list of levels. -/
def prices (ls : List PriceLevel) : List ℚ :=
  ls.map fun l => l.price

theorem prices_append (l₁ l₂ : List PriceLevel) :
    prices (l₁ ++ l₂) = prices l₁ ++ prices l₂ :=
  List.map_append _ _ _

theorem prices_cons (a : PriceLevel) (ls : List PriceLevel) :
    prices (a :: ls) = a.price :: prices ls := rfl

theorem prices_map_overwrite (p q : ℚ) (acc : List PriceLevel) :
    prices (acc.map fun l =>
      if l.price = p then (⟨p, l.quantity + q⟩ : PriceLevel) else l) =
    prices acc := by
  induction acc with
  | nil => rfl
  | cons a as ih =>
    rw [List.map_cons, prices_cons, prices_cons, ih]
    by_cases hc : a.price = p
    · rw [if_pos hc, hc]
    · rw [if_neg hc]

theorem prices_addBucket (p q : ℚ) (acc : List PriceLevel) :
    prices (addBucket p q acc) =
      if acc.any fun l => l.price = p then prices acc else prices acc ++ [p] := by
  rw [addBucket]
  split
  · exact prices_map_overwrite p q acc
  · rw [prices_append]
    rfl

theorem nodup_prices_addBucket (p q : ℚ) (acc : List PriceLevel)
    (h : (prices acc).Nodup) : (prices (addBucket p q acc)).Nodup := by
  rw [prices_addBucket]
  split
  · exact h
  · rw [List.nodup_append]
    refine ⟨h, List.nodup_singleton p, ?_⟩
    intro a ha hb
    rw [List.mem_singleton.mp hb] at ha
    rcases List.mem_map.mp ha with ⟨l, hl, hlp⟩
    exact ‹¬ _› (List.any_eq_true.mpr ⟨l, hl, decide_eq_true hlp⟩)

theorem nodup_prices_aggregateWith_aux (f : ℚ → ℚ) :
    ∀ (ls acc : List PriceLevel), (prices acc).Nodup →
      (prices (ls.foldl (fun a x => addBucket (f x.price) x.quantity a) acc)).Nodup := by
  intro ls
  induction ls with
  | nil => intro acc h; exact h
  | cons x xs ih =>
    intro acc h
    rw [List.foldl_cons]
    exact ih _ (nodup_prices_addBucket _ _ _ h)

theorem nodup_prices_aggregateWith (f : ℚ → ℚ) (ls : List PriceLevel) :
    (prices (aggregateWith f ls)).Nodup :=
  nodup_prices_aggregateWith_aux f ls [] List.nodup_nil

theorem foldl_addBucket_fixed (f : ℚ → ℚ) :
    ∀ (ls acc : List PriceLevel),
      (∀ x ∈ ls, f x.price = x.price) →
      (prices (acc ++ ls)).Nodup →
      ls.foldl (fun a x => addBucket (f x.price) x.quantity a) acc = acc ++ ls := by
  intro ls
  induction ls with
  | nil =>
    intro acc _ _
    rw [List.foldl_nil, List.append_nil]
  | cons x xs ih =>
    intro acc hfix hnodup
    have hfx : f x.price = x.price := hfix x (List.mem_cons_self x xs)
    have hx_not : ¬ ((acc.any fun l => l.price = x.price) = true) := by
      intro hany
      rcases List.any_eq_true.mp hany with ⟨l, hl, hlp⟩
      have hlp2 : l.price = x.price := of_decide_eq_true hlp
      have hmem : x.price ∈ prices acc :=
        List.mem_map.mpr ⟨l, hl, hlp2⟩
      rw [prices_append] at hnodup
      rcases List.nodup_append.mp hnodup with ⟨-, -, hdisj⟩
      exact hdisj hmem (by rw [prices_cons]; exact List.mem_cons_self _ _)
    have hstep : addBucket (f x.price) x.quantity acc = acc ++ [x] := by
      rw [hfx, addBucket, if_neg hx_not]
    rw [List.foldl_cons, hstep,
      ih (acc ++ [x]) (fun y hy => hfix y (List.mem_cons_of_mem x hy))
        (by rw [List.append_assoc]; exact hnodup),
      List.append_assoc]
    rfl

theorem aggregateWith_idem (f : ℚ → ℚ) (hf : ∀ p, f (f p) = f p)
    (ls : List PriceLevel) :
    aggregateWith f (aggregateWith f ls) = aggregateWith f ls := by
  have h1 : ∀ l ∈ aggregateWith f ls, f l.price = l.price := by
    intro l hl
    rcases aggregateWith_price_mem f ls l hl with ⟨x, hx, heq⟩
    rw [heq, hf]
  have h3 := foldl_addBucket_fixed f (aggregateWith f ls) [] h1
    (by rw [List.nil_append]; exact nodup_prices_aggregateWith f ls)
  rw [aggregateWith, h3, List.nil_append]

/-- C7: for every positive tick, every bucket produced by AggregateBids has a
price at most the price of some input bid (hence the maximum bucket price is
at most the maximum input bid price), and every bucket produced by
AggregateAsks has a price at least the price of some input ask (hence the
minimum bucket price is at least the minimum input ask price): floor for
bids, ceiling for asks. -/
theorem c7_aggregation_price_bounds (tick : ℚ) (htick : 0 < tick)
    (bids asks : List PriceLevel) :
    (∀ l ∈ AggregateBids tick bids, ∃ l₀ ∈ bids, l.price ≤ l₀.price) ∧
    (∀ l ∈ AggregateAsks tick asks, ∃ l₀ ∈ asks, l₀.price ≤ l.price) := by
  constructor
  · intro l hl
    rw [AggregateBids] at hl
    rcases aggregateWith_price_mem _ _ _ hl with ⟨x, hx, heq⟩
    exact ⟨x, hx, by rw [heq]; exact roundToTickBid_le tick x.price htick⟩
  · intro l hl
    rw [AggregateAsks] at hl
    rcases aggregateWith_price_mem _ _ _ hl with ⟨x, hx, heq⟩
    exact ⟨x, hx, by rw [heq]; exact le_roundToTickAsk tick x.price htick⟩

/-- C8: tick aggregation is idempotent at a fixed tick — re-aggregating the
output of AggregateBids (resp. AggregateAsks) at the same tick returns the
identical bucket list (prices in the output are fixed points of the rounding
and pairwise distinct, so every bucket maps onto itself). This holds for
every tick, including 0, where rounding is the identity. -/
theorem c8_aggregation_idempotent (tick : ℚ) (bids asks : List PriceLevel) :
    AggregateBids tick (AggregateBids tick bids) = AggregateBids tick bids ∧
    AggregateAsks tick (AggregateAsks tick asks) = AggregateAsks tick asks := by
  constructor
  · rw [AggregateBids, AggregateBids]
    exact aggregateWith_idem _ (roundToTickBid_idem tick) bids
  · rw [AggregateAsks, AggregateAsks]
    exact aggregateWith_idem _ (roundToTickAsk_idem tick) asks

/-- Witness for C7 at tick 10: the bid at 50001 buckets to 50000 ≤ 50001 and
the ask at 50001 buckets to 50010 ≥ 50001. -/
theorem c7_aggregation_price_bounds_witness :
    ((0:ℚ) < 10) ∧
    (∃ l₀ ∈ [(⟨50001, 1⟩ : PriceLevel)],
      (⟨(50000:ℚ), (1:ℚ)⟩ : PriceLevel).price ≤ l₀.price) ∧
    (∃ l₀ ∈ [(⟨50001, 1⟩ : PriceLevel)],
      l₀.price ≤ (⟨(50010:ℚ), (1:ℚ)⟩ : PriceLevel).price) := by
  have hb : (⟨(50000:ℚ), (1:ℚ)⟩ : PriceLevel) ∈ AggregateBids 10 [⟨50001, 1⟩] := by
    rw [AggregateBids, aggregateWith, List.foldl_cons, List.foldl_nil, addBucket]
    norm_num [roundToTickBid]
  have ha : (⟨(50010:ℚ), (1:ℚ)⟩ : PriceLevel) ∈ AggregateAsks 10 [⟨50001, 1⟩] := by
    have hc0 : ⌈(50001:ℚ) / 10⌉ = 5001 := by
      rw [Int.ceil_eq_iff]
      norm_num
    have hc : ((⌈(50001:ℚ) / 10⌉ : ℤ) : ℚ) = 5001 := by
      rw [hc0]
      norm_num
    rw [AggregateAsks, aggregateWith, List.foldl_cons, List.foldl_nil, addBucket]
    norm_num [roundToTickAsk, hc]
  exact ⟨by norm_num,
    (c7_aggregation_price_bounds 10 (by norm_num) [⟨50001, 1⟩] [⟨50001, 1⟩]).1 _ hb,
    (c7_aggregation_price_bounds 10 (by norm_num) [⟨50001, 1⟩] [⟨50001, 1⟩]).2 _ ha⟩

end Orderbook
